import Mathlib

/-!
# Verification of the WeCantJOT overlay scripts

Shallow embedding of the Jack-of-Trades tracker scripts:
* `skillList.ts` (`SKILLS`) and the `skillNames` array of the
  template-matching `src/main.ts`;
* the chat-line regular expressions and `pollChatboxForJoT` of the live
  chat-polling variants;
* the `findSkillIconPosition` stub, the manual-tracker localStorage
  operations, the Reset All handlers, the per-frame loop of the
  template-matching variant, and the `waitForAlt1` startup poller.

JavaScript `Set<string>` values are embedded as duplicate-free
`List String` in insertion order (`add` appends when absent, `delete`
erases, `clear` empties); `localStorage` is embedded as a partial map
`String → Option String`.
-/

namespace WeCantJOT

/-- The `SKILLS` array of `src/skillList.ts`, verbatim. -/
def SKILLS : List String :=
  [ "Attack", "Constitution", "Mining", "Strength", "Agility", "Smithing",
    "Defence", "Herblore", "Fishing", "Ranged", "Thieving", "Cooking",
    "Prayer", "Crafting", "Firemaking", "Magic", "Fletching", "Woodcutting",
    "Runecrafting", "Slayer", "Farming", "Construction", "Hunter",
    "Summoning", "Dungeoneering", "Divination", "Invention", "Necromancy",
    "Archaeology" ]

/-- The `skillNames` array of the template-matching `src/main.ts`, verbatim. -/
def skillNames : List String :=
  [ "Attack", "Constitution", "Mining", "Strength", "Agility", "Smithing",
    "Defence", "Herblore", "Fishing", "Ranged", "Thieving", "Cooking",
    "Prayer", "Crafting", "Firemaking", "Magic", "Fletching", "Woodcutting",
    "Runecraft", "Slayer", "Farming", "Construction", "Hunter",
    "Summoning", "Dungeoneering", "Divination", "Invention", "Necromancy",
    "Archaeology" ]

/-! ## Regular-expression matching

The two patterns in the sources are

* `jotRegex` (chat-polling variants):
  `You gain experience in ([A-Za-z]+) and have now completed \d+\/\d+ skills for your Jack of Trades aura\.`
* the inline token pattern of the template-matching variant:
  `You\s+gain\s+experience\s+in\s+(\w+)\s+and\s+have\s+now\s+completed`

In both patterns every greedy `+`-run is immediately followed by a
character outside the run's class (a space after `[A-Za-z]+`, `/` or a
space after `\d+`, a non-whitespace letter after `\s+`, whitespace after
`\w+`), so backtracking can never shorten a run: matching each run
maximally is exact, and trying start positions left to right reproduces
`RegExp.exec` / `String.match` semantics. -/

/-- Consume an exact literal prefix, returning the rest on success. -/
def dropLit : List Char → List Char → Option (List Char)
  | [], s => some s
  | _ :: _, [] => none
  | c :: cs, d :: ds => if d = c then dropLit cs ds else none

/-- Split off the maximal (possibly empty) run of characters satisfying `p`. -/
def takeRun (p : Char → Bool) : List Char → List Char × List Char
  | [] => ([], [])
  | c :: cs =>
    if p c then
      let r := takeRun p cs
      (c :: r.1, r.2)
    else ([], c :: cs)

/-- The maximal run, but failing unless it is nonempty (a `+` quantifier):
returns the run and the rest of the input. -/
def run1 (p : Char → Bool) (s : List Char) : Option (List Char × List Char) :=
  let r := takeRun p s
  if r.1.isEmpty then none else some r

/-- JavaScript's `\s` character class: ASCII whitespace, NBSP, the Unicode
space separators, line/paragraph separators, and the BOM. -/
def isJsSpace (c : Char) : Bool :=
  let n := c.toNat
  n = 0x20 || n = 0x9 || n = 0xa || n = 0xb || n = 0xc || n = 0xd ||
  n = 0xa0 || n = 0x1680 || (0x2000 <= n && n <= 0x200a) ||
  n = 0x2028 || n = 0x2029 || n = 0x202f || n = 0x205f ||
  n = 0x3000 || n = 0xfeff

/-- JavaScript's `\w` character class: `[A-Za-z0-9_]`. -/
def isWordChar (c : Char) : Bool :=
  c.isAlpha || c.isDigit || c = '_'

/-- Attempt to match `jotRegex` starting exactly at the head of `s`,
returning the group-1 capture (the skill name) on success. -/
def matchJotAt (s : List Char) : Option (List Char) := do
  let s1 ← dropLit "You gain experience in ".toList s
  let r1 ← run1 Char.isAlpha s1
  let s2 ← dropLit " and have now completed ".toList r1.2
  let r2 ← run1 Char.isDigit s2
  let s3 ← dropLit "/".toList r2.2
  let r3 ← run1 Char.isDigit s3
  let _ ← dropLit " skills for your Jack of Trades aura.".toList r3.2
  pure r1.1

/-- Leftmost search for `matchJotAt` over all start positions. -/
def jotSearch : List Char → Option (List Char)
  | [] => matchJotAt []
  | c :: cs =>
    match matchJotAt (c :: cs) with
    | some n => some n
    | none => jotSearch cs

/-- `jotRegex.exec(text)` of the chat-polling variants, reduced to its
group-1 capture: `some skillName` when the line matches, else `none`. -/
def jotMatch (s : String) : Option String :=
  (jotSearch s.data).map fun cs => String.mk cs

/-- Consume `\s+` followed by an exact literal (`\s+word` in the pattern). -/
def spaceLit (lit : List Char) (s : List Char) : Option (List Char) := do
  let w ← run1 isJsSpace s
  dropLit lit w.2

/-- Consume a sequence of `\s+word` units, left to right. -/
def spaceLits : List (List Char) → List Char → Option (List Char)
  | [], s => some s
  | l :: ls, s => (spaceLit l s).bind (spaceLits ls)

/-- Attempt to match the template-matching variant's token pattern
(`You\s+gain\s+experience\s+in\s+(\w+)\s+and\s+have\s+now\s+completed`)
at the head of `s`, returning the group-1 capture. -/
def matchJot2At (s : List Char) : Option (List Char) := do
  let s1 ← dropLit "You".toList s
  let s2 ← spaceLits ["gain".toList, "experience".toList, "in".toList] s1
  let w ← run1 isJsSpace s2
  let cap ← run1 isWordChar w.2
  let _ ← spaceLits
    ["and".toList, "have".toList, "now".toList, "completed".toList] cap.2
  pure cap.1

/-- Leftmost search for `matchJot2At` over all start positions. -/
def jot2Search : List Char → Option (List Char)
  | [] => matchJot2At []
  | c :: cs =>
    match matchJot2At (c :: cs) with
    | some n => some n
    | none => jot2Search cs

/-- `token.match(...)` of the template-matching variant's per-frame loop,
reduced to its group-1 capture. -/
def jot2Match (s : String) : Option String :=
  (jot2Search s.data).map fun cs => String.mk cs

/-! ## The completed-skills set and the chat poll -/

/-- `Set.add`: append if absent (JS sets keep insertion order). -/
def setAdd (c : List String) (s : String) : List String :=
  if s ∈ c then c else c ++ [s]

/-- `Set.delete`: remove the element. -/
def setDelete (c : List String) (s : String) : List String :=
  c.erase s

/-- The body of one iteration of `pollChatboxForJoT`'s `for` loop, acting on
the completed-skills set: `getChatLine(i)` gave `line` (`none` for a falsy
result); on a `jotRegex` match whose capture is a known, not yet completed
skill, the skill is added. -/
def markLine (c : List String) (line : Option String) : List String :=
  match line with
  | none => c
  | some text =>
    match jotMatch text with
    | none => c
    | some skillName =>
      if skillName ∈ SKILLS ∧ skillName ∉ c then c ++ [skillName] else c

/-- `pollChatboxForJoT` of the chat-polling variants: examine chat lines
`0`–`4` in order, marking each recognized Jack-of-Trades skill. -/
def pollChatboxForJoT (getChatLine : Nat → Option String)
    (c : List String) : List String :=
  (List.range 5).foldl (fun acc i => markLine acc (getChatLine i)) c

/-- `onCheckboxToggle`: add on check, delete on uncheck. -/
def onCheckboxToggle (c : List String) (skill : String)
    (isChecked : Bool) : List String :=
  if isChecked then setAdd c skill else setDelete c skill

/-- `updateCheckboxUI` of `src/ui.ts`: for every skill in `skills` set its
checkbox to `selected.has(skill)`; all other checkboxes are untouched.
The UI is modelled as a map from skill name to checked state. -/
def updateCheckboxUI (skills : List String) (selected : List String)
    (cb : String → Bool) : String → Bool :=
  fun s => if s ∈ skills then decide (s ∈ selected) else cb s

/-- The `reset-btn` click handler of the chat-polling variants:
`completedSkills.clear()` then `updateCheckboxUI(SKILLS, completedSkills, …)`.
Returns the new set and the new checkbox states. -/
def resetClick (cb : String → Bool) : List String × (String → Bool) :=
  ([], updateCheckboxUI SKILLS [] cb)

/-! ## The icon-position stub -/

/-- The record returned by `findSkillIconPosition`. -/
structure IconPos where
  x : Int
  y : Int
  w : Int
  h : Int
deriving DecidableEq, Repr

/-- JavaScript `Array.prototype.indexOf`: the first index, or `-1`. -/
def jsIndexOf (l : List String) (s : String) : Int :=
  match l.indexOf? s with
  | some i => (i : Int)
  | none => -1

/-- `findSkillIconPosition` of the chat-polling variants: a fixed dummy
position computed only from the skill's index in `SKILLS`. -/
def findSkillIconPosition (skill : String) : IconPos :=
  { x := 50 + jsIndexOf SKILLS skill * 40, y := 100, w := 32, h := 32 }

/-! ## The manual tracker's localStorage operations -/

/-- `localStorage` as a partial map from keys to string values. -/
def Storage : Type := String → Option String

/-- `localStorage.setItem`. -/
def lsSetItem (st : Storage) (k v : String) : Storage :=
  fun q => if q = k then some v else st q

/-- `localStorage.removeItem`. -/
def lsRemoveItem (st : Storage) (k : String) : Storage :=
  fun q => if q = k then none else st q

/-- The storage key `jot‐manual‐<SkillName>` (U+2010 hyphens, as in the
source). -/
def manualKey (name : String) : String :=
  "jot‐manual‐" ++ name

/-- `Boolean.prototype.toString`. -/
def boolToString (b : Bool) : String :=
  if b then "true" else "false"

/-- The set of keys `renderManualTracker` reads while building the form:
one `getItem` per skill. -/
def manualReadKeys : List String :=
  skillNames.map manualKey

/-- The manual tracker's checkbox `change` listener:
`setItem("jot‐manual‐<name>", checkbox.checked.toString())`. -/
def manualToggle (st : Storage) (name : String) (checked : Bool) : Storage :=
  lsSetItem st (manualKey name) (boolToString checked)

/-- The manual tracker's Reset All handler, storage part: one `removeItem`
per skill, in list order. -/
def manualReset (st : Storage) : Storage :=
  skillNames.foldl (fun acc n => lsRemoveItem acc (manualKey n)) st

/-- The manual tracker's Reset All handler, UI part: every skill's checkbox
(`chk‐<name>`, indexed here by skill name) is set unchecked. -/
def manualResetUI (cb : String → Bool) : String → Bool :=
  fun s => if s ∈ skillNames then false else cb s

/-! ## The `waitForAlt1` startup poller -/

/-- The two states of the startup poller. -/
inductive PollState
  | waiting
  | running
deriving DecidableEq, Repr

/-- One scheduled invocation of `waitForAlt1`: in `waiting`, a successful
detection of `window.alt1` stores the API and calls `init()` (entering
`running`), otherwise `setTimeout(waitForAlt1, 500)` reschedules the wait;
`running` schedules no further `waitForAlt1`, so it is terminal. -/
def waitStep (st : PollState) (detected : Bool) : PollState :=
  match st with
  | .waiting => if detected then .running else .waiting
  | .running => .running

/-- The poller state after `n` invocations, when invocation `k` observes
detection result `d k`. -/
def waitRun (d : Nat → Bool) : Nat → PollState
  | 0 => .waiting
  | n + 1 => waitStep (waitRun d n) (d n)

/-- How many times `init()` has been called after `n` invocations:
`init()` runs exactly on the `waiting`-with-detection transition. -/
def initCount (d : Nat → Bool) : Nat → Nat
  | 0 => 0
  | n + 1 => initCount d n + (if waitRun d n = .waiting ∧ d n then 1 else 0)

/-! ## Startup of the template-matching variant -/

/-- Outcome of `chatbox.find` on the full snapshot, when it does not throw:
whether `initData`, `chatbox.pos`, `chatbox.pos.mainbox` are truthy. -/
structure FindResult where
  initDataTruthy : Bool
  posPresent : Bool
  mainboxPresent : Bool

/-- The host-dependent results of each fallible startup step of the
template-matching `src/main.ts` IIFE, in program order. `Except Unit α`
models a call that can throw. -/
structure StartupEnv where
  alt1Present : Bool
  rsLinkedIsBool : Bool
  rsLinked : Bool
  bindFull : Except Unit Nat
  readFull : Except Unit Unit
  findChat : Except Unit FindResult
  bindChat : Except Unit Nat
  iconsLoad : Except Unit Unit

/-- How the startup IIFE ends. -/
inductive StartupOutcome
  | manualTracker
  | aborted
  | polling
deriving DecidableEq, Repr

/-- The template-matching variant's startup IIFE: each guard or `catch`
renders the manual tracker and returns; a rejected icon load aborts the
async function (step 8's `await` rejects with no handler); the per-icon
`findSubimage` try/catch of step 9 swallows errors, so on success the
per-frame polling loop is started. -/
def startup (e : StartupEnv) : StartupOutcome :=
  if ¬e.alt1Present ∨ ¬e.rsLinkedIsBool then .manualTracker
  else if ¬e.rsLinked then .manualTracker
  else match e.bindFull with
  | .error _ => .manualTracker
  | .ok _ =>
    match e.readFull with
    | .error _ => .manualTracker
    | .ok _ =>
      match e.findChat with
      | .error _ => .manualTracker
      | .ok fr =>
        if ¬fr.initDataTruthy ∨ ¬fr.posPresent ∨ ¬fr.mainboxPresent then
          .manualTracker
        else match e.bindChat with
        | .error _ => .manualTracker
        | .ok _ =>
          match e.iconsLoad with
          | .error _ => .aborted
          | .ok _ => .polling

/-! ## The template-matching variant's per-frame chat loop -/

/-- One frame of the template-matching variant's `loop`, acting on
`doneSkills`: iterate over `chatData.rawWords`; each token matching the
inline pattern whose captured skill is not yet done and has a located icon
(`skillMap[skillName]` truthy) is added to `doneSkills` and overlaid.
Returns the new `doneSkills` and the skills overlaid this frame. -/
def loopStep (skillMap : String → Bool) (acc : List String × List String)
    (token : String) : List String × List String :=
  match jot2Match token with
  | none => acc
  | some skillName =>
    if skillName ∉ acc.1 ∧ skillMap skillName then
      (acc.1 ++ [skillName], acc.2 ++ [skillName])
    else acc

/-- The whole `rawWords` pass of one frame, starting from `doneSkills` and
no overlays yet. -/
def loopFrame (skillMap : String → Bool) (tokens : List String)
    (done : List String) : List String × List String :=
  tokens.foldl (loopStep skillMap) (done, [])

/-! ## Helper lemmas -/

/-- Membership after one loop iteration of the chat poll. -/
theorem mem_markLine {c : List String} {line : Option String} {s : String} :
    s ∈ markLine c line ↔
      s ∈ c ∨ ∃ t, line = some t ∧ jotMatch t = some s ∧ s ∈ SKILLS := by
  cases line with
  | none => simp [markLine]
  | some t =>
    cases h : jotMatch t with
    | none => simp [markLine, h]
    | some name =>
      simp only [markLine, h, Option.some.injEq, exists_eq_left']
      by_cases hg : name ∈ SKILLS ∧ name ∉ c
      · rw [if_pos hg]
        simp only [List.mem_append, List.mem_singleton]
        constructor
        · rintro (hc | rfl)
          · exact Or.inl hc
          · exact Or.inr ⟨rfl, hg.1⟩
        · rintro (hc | ⟨rfl, _⟩)
          · exact Or.inl hc
          · exact Or.inr rfl
      · rw [if_neg hg]
        constructor
        · exact Or.inl
        · rintro (hc | ⟨rfl, hsk⟩)
          · exact hc
          · by_contra hs
            exact hg ⟨hsk, hs⟩

/-- Membership after folding the chat poll's loop body over a list of
chat-line indices. -/
theorem mem_foldl_markLine {chat : Nat → Option String} {l : List Nat}
    {c : List String} {s : String} :
    s ∈ l.foldl (fun acc i => markLine acc (chat i)) c ↔
      s ∈ c ∨ ∃ i ∈ l, ∃ t, chat i = some t ∧ jotMatch t = some s ∧
        s ∈ SKILLS := by
  induction l generalizing c with
  | nil => simp
  | cons a as ih =>
    rw [List.foldl_cons, ih]
    rw [mem_markLine]
    constructor
    · rintro ((hc | ⟨t, ht, hm, hs⟩) | ⟨i, hi, t, ht, hm, hs⟩)
      · exact Or.inl hc
      · exact Or.inr ⟨a, List.mem_cons_self a as, t, ht, hm, hs⟩
      · exact Or.inr ⟨i, List.mem_cons_of_mem a hi, t, ht, hm, hs⟩
    · rintro (hc | ⟨i, hi, t, ht, hm, hs⟩)
      · exact Or.inl (Or.inl hc)
      · rcases List.mem_cons.1 hi with rfl | hi'
        · exact Or.inl (Or.inr ⟨t, ht, hm, hs⟩)
        · exact Or.inr ⟨i, hi', t, ht, hm, hs⟩

/-! ## Claims -/

/-- C1: the chat poll marks a skill as completed (i.e. the skill is in the
set afterwards but was not before) if and only if one of the five polled
chat lines matches the Jack-of-Trades regex with that skill as the
captured name, the name is in `SKILLS`, and it was not already completed.
No other chat line causes any skill to be marked. -/
theorem poll_marks_iff (chat : Nat → Option String) (c : List String)
    (s : String) :
    (s ∈ pollChatboxForJoT chat c ∧ s ∉ c) ↔
      (s ∈ SKILLS ∧ s ∉ c ∧
        ∃ i, i < 5 ∧ ∃ t, chat i = some t ∧ jotMatch t = some s) := by
  unfold pollChatboxForJoT
  rw [mem_foldl_markLine]
  constructor
  · rintro ⟨hc | ⟨i, hi, t, ht, hm, hs⟩, hnc⟩
    · exact absurd hc hnc
    · exact ⟨hs, hnc, i, List.mem_range.1 hi, t, ht, hm⟩
  · rintro ⟨hs, hnc, i, hi, t, ht, hm⟩
    exact ⟨Or.inr ⟨i, List.mem_range.2 hi, t, ht, hm, hs⟩, hnc⟩

/-- C3: the chat poll reads only chat-line indices 0 through 4 (its result
depends only on `getChatLine` at those indices), and an index whose
`getChatLine` is falsy is skipped with no effect on the set. -/
theorem poll_reads_five_lines (chat chat' : Nat → Option String)
    (c : List String) (hagree : ∀ i, i < 5 → chat i = chat' i) :
    pollChatboxForJoT chat c = pollChatboxForJoT chat' c ∧
      ∀ d : List String, markLine d none = d := by
  constructor
  · have e : List.range 5 = [0, 1, 2, 3, 4] := rfl
    unfold pollChatboxForJoT
    rw [e]
    simp only [List.foldl_cons, List.foldl_nil]
    rw [hagree 0 (by omega), hagree 1 (by omega), hagree 2 (by omega),
      hagree 3 (by omega), hagree 4 (by omega)]
  · intro d
    rfl

/-- Witness for C3 at concrete inputs. -/
theorem poll_reads_five_lines_witness :
    pollChatboxForJoT (fun _ => none) ["Magic"] =
        pollChatboxForJoT (fun _ => none) ["Magic"] ∧
      ∀ d : List String, markLine d none = d :=
  poll_reads_five_lines (fun _ => none) (fun _ => none) ["Magic"]
    (fun _ _ => rfl)

/-- `running` is absorbing: once `init()` has run, `waitForAlt1` is never
rescheduled. -/
theorem waitRun_running_absorbing {d : Nat → Bool} {n m : Nat}
    (h : waitRun d n = .running) (hnm : n ≤ m) : waitRun d m = .running := by
  induction m, hnm using Nat.le_induction with
  | base => exact h
  | succ m _ ih => rw [waitRun, ih, waitStep]

/-- The poller stays waiting exactly while no invocation has detected the
host API. -/
theorem waitRun_waiting_of_not_detected {d : Nat → Bool} {n : Nat}
    (h : ∀ k, k < n → d k = false) : waitRun d n = .waiting := by
  induction n with
  | zero => rfl
  | succ n ih =>
    rw [waitRun, ih (fun k hk => h k (Nat.lt_succ_of_lt hk)),
      h n (Nat.lt_succ_self n), waitStep]
    rfl

/-- `init()` has run exactly once iff the poller is in `running`,
and zero times otherwise. -/
theorem initCount_eq {d : Nat → Bool} {n : Nat} :
    initCount d n = if waitRun d n = PollState.running then 1 else 0 := by
  induction n with
  | zero => rfl
  | succ n ih =>
    rw [initCount, ih, waitRun]
    cases hst : waitRun d n with
    | waiting =>
      cases hd : d n with
      | false => simp [waitStep, hd]
      | true => simp [waitStep, hd]
    | running => simp [waitStep]

/-- If `init()` has run, some earlier invocation detected the host API. -/
theorem initCount_pos_detected {d : Nat → Bool} {n : Nat}
    (h : initCount d n = 1) : ∃ k, k < n ∧ d k = true := by
  induction n with
  | zero => rw [initCount] at h; cases h
  | succ n ih =>
    rw [initCount] at h
    by_cases hc : waitRun d n = .waiting ∧ d n
    · exact ⟨n, Nat.lt_succ_self n, hc.2⟩
    · rw [if_neg hc] at h
      rcases ih (by omega) with ⟨k, hk, hd⟩
      exact ⟨k, Nat.lt_succ_of_lt hk, hd⟩

/-- C4: the startup poller is a two-state machine. It stays `waiting`,
rescheduling itself, as long as the host API is not detected; `running` is
never left once entered; `init()` is called at most once, exactly once iff
the machine is `running`, and only after some invocation detected the host
API. -/
theorem waitForAlt1_state_machine (d : Nat → Bool) (n : Nat) :
    ((∀ k, k < n → d k = false) → waitRun d n = .waiting) ∧
    (waitRun d n = .running → ∀ m, n ≤ m → waitRun d m = .running) ∧
    initCount d n ≤ 1 ∧
    (waitRun d n = .running ↔ initCount d n = 1) ∧
    (initCount d n = 1 → ∃ k, k < n ∧ d k = true) := by
  refine ⟨waitRun_waiting_of_not_detected,
    fun h m hm => waitRun_running_absorbing h hm, ?_, ?_,
    initCount_pos_detected⟩
  · rw [initCount_eq]
    split <;> omega
  · rw [initCount_eq]
    by_cases h : waitRun d n = PollState.running <;> simp [h]

/-- Witness for C4 at concrete inputs. -/
theorem waitForAlt1_state_machine_witness :
    waitRun (fun _ => false) 3 = .waiting ∧
      initCount (fun _ => true) 3 ≤ 1 := by
  constructor
  · exact (waitForAlt1_state_machine (fun _ => false) 3).1 (fun _ _ => rfl)
  · exact (waitForAlt1_state_machine (fun _ => true) 3).2.2.1

/-- C2: every failure path of the template-matching variant's startup —
Alt1 absent or `rsLinked` not boolean, `rsLinked` false, binding the full
window throws, reading the snapshot throws, `chatbox.find` throws or fails
to locate the chat UI, or binding the chat strip throws — renders the
manual checkbox tracker and returns without starting the polling loop. -/
theorem startup_failure_renders_manual (e : StartupEnv)
    (h : ¬e.alt1Present ∨ ¬e.rsLinkedIsBool ∨ ¬e.rsLinked ∨
      e.bindFull = .error () ∨ e.readFull = .error () ∨
      e.findChat = .error () ∨
      (∃ fr, e.findChat = .ok fr ∧
        (¬fr.initDataTruthy ∨ ¬fr.posPresent ∨ ¬fr.mainboxPresent)) ∨
      e.bindChat = .error ()) :
    startup e = .manualTracker := by
  rcases e with ⟨a, rb, rl, bf, rf, fc, bc, il⟩
  cases a <;> cases rb <;> cases rl <;>
    rcases bf with ⟨⟨⟩⟩ | bf <;>
    rcases rf with ⟨⟨⟩⟩ | ⟨⟨⟩⟩ <;>
    rcases fc with ⟨⟨⟩⟩ | ⟨fi, fp, fm⟩ <;>
    rcases bc with ⟨⟨⟩⟩ | bc <;>
    first
      | rfl
      | (cases fi <;> cases fp <;> cases fm <;>
          simp_all [startup])

/-- Witness for C2 at a concrete environment. -/
theorem startup_failure_renders_manual_witness :
    startup ⟨true, true, true, Except.ok 7, Except.ok (),
        Except.ok ⟨true, true, true⟩, Except.error (), Except.ok ()⟩ =
      StartupOutcome.manualTracker :=
  startup_failure_renders_manual
    ⟨true, true, true, Except.ok 7, Except.ok (),
      Except.ok ⟨true, true, true⟩, Except.error (), Except.ok ()⟩
    (by simp)

/-- C5 counterexample: the two skill arrays are not identical — at index 18
`src/src/main.ts` has `"Runecraft"` while `skillList.ts` has
`"Runecrafting"`. -/
theorem skill_lists_differ :
    skillNames.get? 18 = some "Runecraft" ∧
      SKILLS.get? 18 = some "Runecrafting" ∧
      skillNames ≠ SKILLS := by
  refine ⟨rfl, rfl, fun h => ?_⟩
  have : skillNames.get? 18 = SKILLS.get? 18 := by rw [h]
  simp only [skillNames, SKILLS] at this
  exact absurd (Option.some.inj this) (by decide)

/-- C5 amended: both arrays have 29 entries and agree at every index except
18, where `src/src/main.ts` has `"Runecraft"` and `skillList.ts` has
`"Runecrafting"`. -/
theorem skill_lists_agree_except_runecraft :
    skillNames.length = 29 ∧ SKILLS.length = 29 ∧
      (∀ i, i < 29 → i ≠ 18 → skillNames.get? i = SKILLS.get? i) ∧
      skillNames.get? 18 = some "Runecraft" ∧
      SKILLS.get? 18 = some "Runecrafting" := by
  refine ⟨rfl, rfl, ?_, rfl, rfl⟩
  decide

/-- Witness for C5's amended claim at a concrete index. -/
theorem skill_lists_agree_except_runecraft_witness :
    skillNames.get? 0 = SKILLS.get? 0 :=
  skill_lists_agree_except_runecraft.2.2.1 0 (by decide) (by decide)

/-- C6: for every index into `SKILLS`, the icon-locating stub returns the
fixed rectangle `x = 50 + 40·index`, `y = 100`, `w = 32`, `h = 32`; it
takes no screen or host state. -/
theorem findSkillIconPosition_fixed :
    ∀ i, i < SKILLS.length →
      findSkillIconPosition (SKILLS.getD i "") =
        ⟨50 + 40 * (i : Int), 100, 32, 32⟩ := by
  decide

/-- Witness for C6 at a concrete index. -/
theorem findSkillIconPosition_fixed_witness :
    findSkillIconPosition (SKILLS.getD 2 "") = ⟨130, 100, 32, 32⟩ :=
  findSkillIconPosition_fixed 2 (by decide)

/-! ### localStorage frame lemmas -/

/-- Removing a list of keys leaves every other key unchanged. -/
theorem foldl_lsRemoveItem_not_mem {l : List String} {st : Storage}
    {k : String} (hk : ∀ n ∈ l, k ≠ manualKey n) :
    l.foldl (fun acc n => lsRemoveItem acc (manualKey n)) st k = st k := by
  induction l generalizing st with
  | nil => rfl
  | cons a as ih =>
    rw [List.foldl_cons, ih (fun n hn => hk n (List.mem_cons_of_mem a hn))]
    exact if_neg (hk a (List.mem_cons_self a as))

/-- Removing a list of keys erases every key in the list. -/
theorem foldl_lsRemoveItem_mem {l : List String} {st : Storage}
    {k : String} (hn : ∃ n ∈ l, k = manualKey n) :
    l.foldl (fun acc n => lsRemoveItem acc (manualKey n)) st k = none := by
  induction l generalizing st with
  | nil => rcases hn with ⟨n, hn, _⟩; cases hn
  | cons a as ih =>
    rw [List.foldl_cons]
    by_cases has : ∃ n ∈ as, k = manualKey n
    · exact ih has
    · push_neg at has
      rcases hn with ⟨n, hnl, rfl⟩
      rcases List.mem_cons.1 hnl with rfl | hmem
      · rw [foldl_lsRemoveItem_not_mem has, lsRemoveItem, if_pos rfl]
      · exact absurd rfl (has n hmem)

/-- C7: the manual tracker touches only the `jot‐manual‐<SkillName>` keys
for skills in the list: a checkbox toggle and the Reset All sweep leave
every other key unchanged, a toggle writes only the string `"true"` or
`"false"` to its own key, and the initial render reads only keys of that
form. -/
theorem manual_tracker_storage_frame (st : Storage) (name : String)
    (hname : name ∈ skillNames) (b : Bool) (k : String)
    (hk : ∀ n ∈ skillNames, k ≠ manualKey n) :
    manualToggle st name b k = st k ∧
    manualReset st k = st k ∧
    (manualToggle st name b (manualKey name) = some "true" ∨
      manualToggle st name b (manualKey name) = some "false") ∧
    (∀ q ∈ manualReadKeys, ∃ n ∈ skillNames, q = manualKey n) := by
  refine ⟨?_, ?_, ?_, ?_⟩
  · exact if_neg (hk name hname)
  · exact foldl_lsRemoveItem_not_mem hk
  · cases b
    · exact Or.inr (if_pos rfl)
    · exact Or.inl (if_pos rfl)
  · intro q hq
    rcases List.mem_map.1 hq with ⟨n, hn, he⟩
    exact ⟨n, hn, he.symm⟩

/-- Witness for C7 at concrete inputs. -/
theorem manual_tracker_storage_frame_witness :
    manualToggle (fun _ => none) "Attack" true "unrelated" = none ∧
    manualReset (fun _ => none) "unrelated" = none ∧
    (manualToggle (fun _ => none) "Attack" true (manualKey "Attack") =
        some "true" ∨
      manualToggle (fun _ => none) "Attack" true (manualKey "Attack") =
        some "false") ∧
    (∀ q ∈ manualReadKeys, ∃ n ∈ skillNames, q = manualKey n) :=
  manual_tracker_storage_frame (fun _ => none) "Attack" (by decide) true
    "unrelated" (by decide)

/-- C8: every mutation of the completed-skills set keeps it inside
`SKILLS`: the chat poll adds a captured name only after checking
`SKILLS.includes`, the manual checkbox toggle only ever adds its own
(valid) skill, and Reset All empties the set. -/
theorem completed_subset_preserved (chat : Nat → Option String)
    (c : List String) (hc : ∀ s ∈ c, s ∈ SKILLS) (skill : String)
    (hskill : skill ∈ SKILLS) (b : Bool) (cb : String → Bool) :
    (∀ s ∈ pollChatboxForJoT chat c, s ∈ SKILLS) ∧
    (∀ s ∈ onCheckboxToggle c skill b, s ∈ SKILLS) ∧
    (∀ s ∈ (resetClick cb).1, s ∈ SKILLS) := by
  refine ⟨?_, ?_, ?_⟩
  · intro s hs
    unfold pollChatboxForJoT at hs
    rcases mem_foldl_markLine.1 hs with h | ⟨_, _, _, _, _, h⟩
    · exact hc s h
    · exact h
  · intro s hs
    cases b with
    | false =>
      have he : onCheckboxToggle c skill false = setDelete c skill := rfl
      rw [he] at hs
      exact hc s (List.mem_of_mem_erase hs)
    | true =>
      have he : onCheckboxToggle c skill true = setAdd c skill := rfl
      rw [he] at hs
      unfold setAdd at hs
      split at hs
      · exact hc s hs
      · rcases List.mem_append.1 hs with h | h
        · exact hc s h
        · rw [List.mem_singleton.1 h]
          exact hskill
  · intro s hs
    cases hs

/-- Witness for C8 at concrete inputs. -/
theorem completed_subset_preserved_witness :
    "Magic" ∈ SKILLS ∧ "Attack" ∈ SKILLS := by
  have h := completed_subset_preserved (fun _ => none) ["Magic"] (by decide)
    "Attack" (by decide) true (fun _ => false)
  exact ⟨h.1 "Magic" (by decide), h.2.1 "Attack" (by decide)⟩

/-- When every skill recognizably reported in the polled chat lines is
already completed, the poll changes nothing. -/
theorem foldl_markLine_saturated {chat : Nat → Option String} {l : List Nat}
    {c : List String}
    (h : ∀ i ∈ l, ∀ t n, chat i = some t → jotMatch t = some n →
      n ∈ SKILLS → n ∈ c) :
    l.foldl (fun acc i => markLine acc (chat i)) c = c := by
  induction l with
  | nil => rfl
  | cons a as ih =>
    rw [List.foldl_cons]
    have ha : markLine c (chat a) = c := by
      cases hl : chat a with
      | none => rfl
      | some t =>
        cases hm : jotMatch t with
        | none => simp [markLine, hm]
        | some n =>
          simp only [markLine, hm]
          rw [if_neg]
          rintro ⟨hns, hnc⟩
          exact hnc (h a (List.mem_cons_self a as) t n hl hm hns)
    rw [ha]
    exact ih (fun i hi => h i (List.mem_cons_of_mem a hi))

/-- A skill already in `doneSkills` survives a frame untouched: it is never
appended again (its multiplicity is unchanged) and never overlaid. -/
theorem foldl_loopStep_invariant {skillMap : String → Bool}
    {tokens : List String} {d o : List String} {s : String} (hs : s ∈ d) :
    s ∈ (tokens.foldl (loopStep skillMap) (d, o)).1 ∧
      (tokens.foldl (loopStep skillMap) (d, o)).1.count s = d.count s ∧
      (tokens.foldl (loopStep skillMap) (d, o)).2.count s = o.count s := by
  induction tokens generalizing d o with
  | nil => exact ⟨hs, rfl, rfl⟩
  | cons t ts ih =>
    rw [List.foldl_cons]
    cases hm : jot2Match t with
    | none =>
      have hstep : loopStep skillMap (d, o) t = (d, o) := by
        simp [loopStep, hm]
      rw [hstep]
      exact ih hs
    | some name =>
      by_cases hg : name ∉ d ∧ skillMap name
      · have hne : name ≠ s := fun he => hg.1 (he ▸ hs)
        have hstep : loopStep skillMap (d, o) t =
            (d ++ [name], o ++ [name]) := by
          simp [loopStep, hm, hg.1, hg.2]
        rw [hstep]
        have hs' : s ∈ d ++ [name] := List.mem_append.2 (Or.inl hs)
        rcases ih hs' with ⟨h1, h2, h3⟩
        refine ⟨h1, ?_, ?_⟩
        · rw [h2, List.count_append]
          simp [List.count_singleton', hne]
        · rw [h3, List.count_append]
          simp [List.count_singleton', hne]
      · have hstep : loopStep skillMap (d, o) t = (d, o) := by
          simp only [loopStep, hm]
          rw [if_neg hg]
        rw [hstep]
        exact ih hs

/-- C9: marking from chat is idempotent and at-most-once: a second run of
the chat poll on the same chat lines leaves the set exactly as after the
first (hence the checkbox UI, a function of the set, as well); and in the
template-matching variant a skill already in `doneSkills` is kept with
unchanged multiplicity and is never re-overlaid, whatever tokens arrive. -/
theorem marking_idempotent (chat : Nat → Option String) (c : List String)
    (skillMap : String → Bool) (tokens : List String) (done : List String) :
    pollChatboxForJoT chat (pollChatboxForJoT chat c) =
      pollChatboxForJoT chat c ∧
    ∀ s ∈ done, s ∈ (loopFrame skillMap tokens done).1 ∧
      s ∉ (loopFrame skillMap tokens done).2 ∧
      (loopFrame skillMap tokens done).1.count s = done.count s := by
  constructor
  · unfold pollChatboxForJoT
    refine foldl_markLine_saturated ?_
    intro i hi t n hl hm hns
    exact mem_foldl_markLine.2 (Or.inr ⟨i, hi, t, hl, hm, hns⟩)
  · intro s hs
    rcases @foldl_loopStep_invariant skillMap tokens done [] s hs
      with ⟨h1, h2, h3⟩
    refine ⟨h1, ?_, h2⟩
    rw [List.count_nil] at h3
    exact List.count_eq_zero.1 h3

/-- Witness for C9 at concrete inputs. -/
theorem marking_idempotent_witness :
    pollChatboxForJoT (fun _ => none)
        (pollChatboxForJoT (fun _ => none) ["Magic"]) =
      pollChatboxForJoT (fun _ => none) ["Magic"] ∧
    "Magic" ∈ (loopFrame (fun _ => true)
        ["You gain experience in Magic and have now completed"]
        ["Magic"]).1 := by
  have h := marking_idempotent (fun _ => none) ["Magic"] (fun _ => true)
    ["You gain experience in Magic and have now completed"] ["Magic"]
  exact ⟨h.1, (h.2 "Magic" (by decide)).1⟩

/-- C10: Reset All fully clears completion state, whatever the prior state:
the set becomes empty and every skill's checkbox is unchecked; in the
manual-fallback variant every `jot‐manual‐<SkillName>` key is removed and
every checkbox is unchecked. -/
theorem reset_all_clears (cb : String → Bool) (st : Storage) :
    (resetClick cb).1 = [] ∧
    (∀ s ∈ SKILLS, (resetClick cb).2 s = false) ∧
    (∀ n ∈ skillNames, manualReset st (manualKey n) = none) ∧
    (∀ n ∈ skillNames, manualResetUI cb n = false) := by
  refine ⟨rfl, ?_, ?_, ?_⟩
  · intro s hs
    simp [resetClick, updateCheckboxUI, hs]
  · intro n hn
    exact foldl_lsRemoveItem_mem ⟨n, hn, rfl⟩
  · intro n hn
    simp [manualResetUI, hn]

/-- Witness for C10 at concrete inputs. -/
theorem reset_all_clears_witness :
    (resetClick (fun _ => true)).1 = [] ∧
    (resetClick (fun _ => true)).2 "Magic" = false ∧
    manualReset (fun _ => some "true") (manualKey "Attack") = none ∧
    manualResetUI (fun _ => true) "Attack" = false := by
  have h := reset_all_clears (fun _ => true) (fun _ => some "true")
  exact ⟨h.1, h.2.1 "Magic" (by decide), h.2.2.1 "Attack" (by decide),
    h.2.2.2 "Attack" (by decide)⟩

end WeCantJOT
